import Mathlib

/-!
Verification of the report-summarization backend (`app/main.py`).

The development shallowly embeds the three pieces of repository logic:

* `extract_ev_ebitda_median` — the table metric extractor, including a
  faithful model of the Python regex `(\d{1,3}(?:\.\d+)?)倍` under
  `re.search` semantics (leftmost start position, greedy `\d{1,3}` trying
  3, 2, 1 digits, greedy optional fraction, backtracking);
* `search_relevant_text` — the paragraph ranker.  The sklearn TF-IDF /
  cosine-similarity library call is an external collaborator; it is
  abstracted as the list of similarity scores handed to the repository's
  own selection logic `argsort()[-3:][::-1]`.  numpy's `argsort` is
  modelled as the stable ascending argsort (ascending score, ties by
  ascending index), which is what numpy computes on the small arrays
  involved here;
* `summarize_preset_file` — the HTTP endpoint.  The document loader,
  the file-existence check and the OpenAI client are parameters; Python
  exception flow (the `try`/`except` ladder, with FastAPI's
  `HTTPException` being a subclass of `Exception`) is made explicit via
  an `Except` monad over an exception datatype.
-/

/-- A table row: the list of (stripped) cell texts. -/
abbrev Row := List String

/-- A table: an ordered list of rows. -/
abbrev Table := List Row

/-- A loaded document: its paragraph texts and its tables
(`document.paragraphs`, `document.tables` in python-docx). -/
structure Doc where
  paragraphs : List String
  tables : List Table

/-- `hasPrefixChars needle l` : does `l` start with `needle`?  (Char lists.) -/
def hasPrefixChars : List Char → List Char → Bool
  | [], _ => true
  | _ :: _, [] => false
  | a :: as, b :: bs => a == b && hasPrefixChars as bs

/-- Substring test on char lists: does `needle` occur contiguously in the list? -/
def containsChars (needle : List Char) : List Char → Bool
  | [] => needle.isEmpty
  | c :: cs => hasPrefixChars needle (c :: cs) || containsChars needle cs

/-- Python's `needle in hay` on strings. -/
def strContains (hay needle : String) : Bool :=
  containsChars needle.data hay.data

/-- Maximal digit prefix of a char list, with the remainder
(the behaviour of a greedy `\d+` / `\d*`). -/
def takeDigits : List Char → List Char × List Char
  | [] => ([], [])
  | c :: cs =>
    if c.isDigit then
      let p := takeDigits cs
      (c :: p.1, p.2)
    else ([], c :: cs)

/-- Matching of the regex tail `(?:\.\d+)?倍` at the head of a char list,
returning the consumed characters.  Greedy semantics of the Python
pattern: if the head is `倍` the optional fraction is empty; if the head
is `.` the fraction must consume the maximal nonempty digit run and be
followed immediately by `倍` (backtracking inside `\d+` or into the empty
fraction can never succeed, since the characters revealed are digits or
the dot); any other head fails. -/
def matchTail : List Char → Option (List Char)
  | [] => none
  | c :: cs =>
    if c = '倍' then some ['倍']
    else if c = '.' then
      match takeDigits cs with
      | ([], _) => none
      | (d :: ds, rest) =>
        match rest with
        | '倍' :: _ => some ('.' :: d :: ds ++ ['倍'])
        | _ => none
    else none

/-- Attempt of the whole pattern at the current position with exactly `k`
leading digits: `k` digit characters, then the tail `(?:\.\d+)?倍`. -/
def tryDigits (k : Nat) (cs : List Char) : Option (List Char) :=
  if (cs.take k).length = k ∧ ∀ c ∈ cs.take k, c.isDigit = true then
    match matchTail (cs.drop k) with
    | some tail => some (cs.take k ++ tail)
    | none => none
  else none

/-- Match of `(\d{1,3}(?:\.\d+)?)倍` anchored at the current position:
the greedy `\d{1,3}` tries three digits first, then two, then one. -/
def matchAt (cs : List Char) : Option (List Char) :=
  (tryDigits 3 cs).or ((tryDigits 2 cs).or (tryDigits 1 cs))

/-- `re.search`: try the anchored match at each start position, left to
right, returning the first success. -/
def searchChars : List Char → Option (List Char)
  | [] => none
  | c :: cs =>
    match matchAt (c :: cs) with
    | some m => some m
    | none => searchChars cs

/-- `pattern.search(text)` for `pattern = re.compile(r"(\d{1,3}(?:\.\d+)?)倍")`,
returning `match.group(0)` of the first match. -/
def patternSearch (s : String) : Option String :=
  (searchChars s.data).map fun m => String.mk m

/-- One loop iteration of the extractor on a row: if the first cell
contains `中央値`, search the last cell for the ratio pattern; otherwise
this row produces nothing.  (`cells[0]` / `cells[-1]` of the Python.) -/
def rowMatch (cells : Row) : Option String :=
  if strContains (cells.headD "") "中央値" then patternSearch (cells.getLastD "")
  else none

/-- `extract_ev_ebitda_median`: scan tables in order, rows in order,
return the first row match (early exit), else `None`. -/
def extract_ev_ebitda_median (tables : List Table) : Option String :=
  tables.findSome? fun table => table.findSome? rowMatch

/-! ## The HTTP endpoint `summarize_preset_file` -/

/-- Python exceptions that can escape the `try` block of the endpoint. -/
inductive PyExc where
  | httpExc (status : Nat) (detail : String)
  | fileNotFound (msg : String)
  | openaiError (msg : String)
  | other (msg : String)
deriving DecidableEq

/-- An HTTP error response (`HTTPException` as observed by the client). -/
structure HTTPError where
  statusCode : Nat
  detail : String
deriving DecidableEq

/-- `str(e)` of a starlette/FastAPI `HTTPException`: `"{status_code}: {detail}"`. -/
def strOfHTTPExc (status : Nat) (detail : String) : String :=
  toString status ++ ": " ++ detail

/-- The five fixed topic keys with their question strings, in the
insertion order of the Python `queries` dict. -/
def queries : List (String × String) :=
  [("current_situation", "業界の現状を説明してください。"),
   ("future_outlook", "業界の将来の見立てを説明してください。"),
   ("investment_advantages", "業界への投資メリットを教えてください。"),
   ("investment_disadvantages", "業界への投資デメリットを教えてください。"),
   ("value_up_hypothesis", "業界におけるDXによるバリューアップ仮説を説明してください。")]

/-- The prompt assembled for the OpenAI chat call. -/
def promptOf (relevantText query : String) : String :=
  relevantText ++ "\n\n上記の内容を要約し、以下の質問に回答してください：" ++ query
    ++ " トークン数は50以内でお願いします。"

/-- The order in which a stable ascending argsort emits indices:
ascending score, ties by ascending index. -/
def idxLe (scores : List ℚ) (i j : Nat) : Prop :=
  scores.getD i 0 < scores.getD j 0 ∨ (scores.getD i 0 = scores.getD j 0 ∧ i ≤ j)

instance (scores : List ℚ) : DecidableRel (idxLe scores) := fun i j => by
  unfold idxLe; infer_instance

instance (scores : List ℚ) : IsTotal Nat (idxLe scores) := ⟨by
  intro i j
  unfold idxLe
  rcases lt_trichotomy (scores.getD i 0) (scores.getD j 0) with h | h | h
  · exact Or.inl (Or.inl h)
  · rcases Nat.le_total i j with hij | hij
    · exact Or.inl (Or.inr ⟨h, hij⟩)
    · exact Or.inr (Or.inr ⟨h.symm, hij⟩)
  · exact Or.inr (Or.inl h)⟩

instance (scores : List ℚ) : IsTrans Nat (idxLe scores) := ⟨by
  intro a b c hab hbc
  unfold idxLe at *
  rcases hab with h1 | ⟨e1, l1⟩ <;> rcases hbc with h2 | ⟨e2, l2⟩
  · exact Or.inl (h1.trans h2)
  · exact Or.inl (by rw [← e2]; exact h1)
  · exact Or.inl (by rw [e1]; exact h2)
  · exact Or.inr ⟨e1.trans e2, l1.trans l2⟩⟩

/-- The repository's top-3 selection: `cosine_similarities.argsort()[-3:][::-1]`
applied to the score vector, as index list.  `argsort` is the stable
ascending argsort: ascending score, ties by ascending index. -/
def argsortAsc (scores : List ℚ) : List Nat :=
  List.insertionSort (idxLe scores) (List.range scores.length)

/-- The indices selected and ordered by `argsort()[-3:][::-1]`. -/
def rank_indices (scores : List ℚ) : List Nat :=
  ((argsortAsc scores).drop (scores.length - 3)).reverse

/-- `search_relevant_text`: the sklearn cosine-similarity vector for the
query against the paragraphs is the collaborator-supplied `scores`; the
repository code selects `[texts[i] for i in scores.argsort()[-3:][::-1]]`. -/
def search_relevant_text (scores : List ℚ) (texts : List String) : List String :=
  (rank_indices scores).map fun i => texts.getD i ""

/-- Modelled from the spec's words, for comparison with the code's
`search_relevant_text`: "a derived ordered list of the 3 paragraphs with
highest lexical similarity, ties broken by descending similarity score
then by original paragraph order (stable sort)" — a stable sort by
descending score with ties in ascending original index, truncated to 3. -/
def specRank (scores : List ℚ) (texts : List String) : List String :=
  ((List.insertionSort
      (fun i j => scores.getD j 0 < scores.getD i 0 ∨
        (scores.getD i 0 = scores.getD j 0 ∧ i ≤ j))
      (List.range texts.length)).take 3).map fun i => texts.getD i ""

/-- The body of the endpoint's `try` block.  `fileExists` models
`os.path.exists`, `loadDoc` the python-docx `Document` constructor,
`sim` the sklearn TF-IDF cosine-similarity vector of a query against a
paragraph list, and `summarize` the OpenAI chat call on the assembled
prompt (returning the stripped message content on success). -/
def tryBody (industry : String) (fileExists : String → Bool) (loadDoc : String → Doc)
    (sim : String → List String → List ℚ) (summarize : String → Except PyExc String) :
    Except PyExc (List (String × String)) := do
  let file_path := "app/" ++ industry ++ ".docx"
  if fileExists file_path = false then
    throw (PyExc.httpExc 404 "指定されたファイルが見つかりません。")
  else
    let document := loadDoc file_path
    let paragraphs := document.paragraphs.filter fun p => p.trim ≠ ""
    let summaries ← queries.mapM fun kq =>
      let relevant := search_relevant_text (sim kq.2 paragraphs) paragraphs
      let relevant_text := String.intercalate "\n" relevant
      (summarize (promptOf relevant_text kq.2)).map fun c => (kq.1, c.trim)
    match extract_ev_ebitda_median document.tables with
    | none => throw (PyExc.httpExc 404 "企業価値/EBITDA倍率の中央値が見つかりません。")
    | some m => pure (summaries ++ [("ev_ebitda_median", m)])

/-- The endpoint.  The `industry is None` check precedes the `try` block;
exceptions escaping the `try` body are dispatched by the `except` ladder
`FileNotFoundError` / `openai.error.OpenAIError` / `Exception`.  An
`HTTPException` raised inside the body is an `Exception`, so it is caught
by the last clause and re-raised as a 500 whose detail is `str(e)`. -/
def summarize_preset_file (industry : Option String) (fileExists : String → Bool)
    (loadDoc : String → Doc) (sim : String → List String → List ℚ)
    (summarize : String → Except PyExc String) :
    Except HTTPError (List (String × String)) :=
  match industry with
  | none => Except.error ⟨400, "レポートが表示されていません。業界名を指定してください。"⟩
  | some ind =>
    match tryBody ind fileExists loadDoc sim summarize with
    | Except.ok r => Except.ok r
    | Except.error (PyExc.fileNotFound _) =>
      Except.error ⟨404, "指定されたファイルが見つかりません。"⟩
    | Except.error (PyExc.openaiError m) =>
      Except.error ⟨500, "OpenAI APIエラー: " ++ m⟩
    | Except.error (PyExc.httpExc s d) => Except.error ⟨500, strOfHTTPExc s d⟩
    | Except.error (PyExc.other m) => Except.error ⟨500, m⟩

example :
    summarize_preset_file (some "IT") (fun _ => true) (fun _ => ⟨["段落1"], []⟩)
      (fun _ _ => [1]) (fun _ => Except.ok "要約")
      = Except.error ⟨500, "404: 企業価値/EBITDA倍率の中央値が見つかりません。"⟩ := by rfl

/-! ## Helper lemmas about the ranker -/

lemma argsortAsc_perm (scores : List ℚ) :
    (argsortAsc scores).Perm (List.range scores.length) :=
  List.perm_insertionSort _ _

lemma argsortAsc_sorted (scores : List ℚ) :
    (argsortAsc scores).Pairwise (idxLe scores) :=
  List.sorted_insertionSort _ _

lemma rank_indices_pairwise (scores : List ℚ) :
    (rank_indices scores).Pairwise (fun i j => idxLe scores j i) := by
  unfold rank_indices
  rw [List.pairwise_reverse]
  exact List.Pairwise.sublist (List.drop_sublist _ _) (argsortAsc_sorted scores)

lemma rank_indices_nodup (scores : List ℚ) : (rank_indices scores).Nodup := by
  unfold rank_indices
  rw [List.nodup_reverse]
  exact (List.drop_sublist _ _).nodup
    ((argsortAsc_perm scores).symm.nodup (List.nodup_range _))

lemma rank_indices_mem_lt (scores : List ℚ) {i : Nat} (h : i ∈ rank_indices scores) :
    i < scores.length := by
  unfold rank_indices at h
  rw [List.mem_reverse] at h
  have h2 := List.Sublist.mem h (List.drop_sublist _ _)
  have h3 := (argsortAsc_perm scores).mem_iff.mp h2
  exact List.mem_range.mp h3

lemma rank_indices_length_le (scores : List ℚ) : (rank_indices scores).length ≤ 3 := by
  unfold rank_indices
  rw [List.length_reverse, List.length_drop]
  have h := (argsortAsc_perm scores).length_eq
  rw [h, List.length_range]
  omega

lemma map_getD_range {α : Type} (l : List α) (d : α) :
    (List.range l.length).map (fun i => l.getD i d) = l := by
  induction l with
  | nil => rfl
  | cons a tl ih =>
    calc (List.range (a :: tl).length).map (fun i => (a :: tl).getD i d)
        = a :: (List.range tl.length).map (fun i => tl.getD i d) := by
          rw [List.length_cons, List.range_succ_eq_map]
          simp [List.map_map, Function.comp, List.getD_cons_succ]
      _ = a :: tl := by rw [ih]

/-! ## Helper lemmas about the regex model -/

lemma matchTail_digit {c : Char} (cs : List Char) (hc : c.isDigit = true) :
    matchTail (c :: cs) = none := by
  have h1 : ¬ c = '倍' := by
    intro h; subst h; exact absurd hc (by decide)
  have h2 : ¬ c = '.' := by
    intro h; subst h; exact absurd hc (by decide)
  simp [matchTail, h1, h2]

lemma tryDigits_none_of_digit_next (k : Nat) (ds : List Char)
    (hds : ∀ c ∈ ds, c.isDigit = true) (hk : k < ds.length) :
    tryDigits k (ds ++ ['倍']) = none := by
  have hd : (ds ++ ['倍']).drop k = ds[k] :: (ds.drop (k + 1) ++ ['倍']) := by
    rw [List.drop_append_of_le_length (le_of_lt hk), List.drop_eq_getElem_cons hk,
      List.cons_append]
  have hmt : matchTail ((ds ++ ['倍']).drop k) = none := by
    rw [hd]
    exact matchTail_digit _ (hds _ (List.getElem_mem hk))
  unfold tryDigits
  rw [hmt]
  split <;> rfl

lemma matchAt_none_of_long_digit_run (ds : List Char)
    (hds : ∀ c ∈ ds, c.isDigit = true) (h4 : 4 ≤ ds.length) :
    matchAt (ds ++ ['倍']) = none := by
  unfold matchAt
  rw [tryDigits_none_of_digit_next 3 ds hds (by omega),
    tryDigits_none_of_digit_next 2 ds hds (by omega),
    tryDigits_none_of_digit_next 1 ds hds (by omega)]
  rfl

lemma matchAt_three_digits (ds : List Char)
    (hds : ∀ c ∈ ds, c.isDigit = true) (h3 : ds.length = 3) :
    matchAt (ds ++ ['倍']) = some (ds ++ ['倍']) := by
  have ht : (ds ++ ['倍']).take 3 = ds := by
    rw [List.take_append_of_le_length (by omega), ← h3, List.take_length]
  have hd : (ds ++ ['倍']).drop 3 = ['倍'] := by
    rw [List.drop_append_of_le_length (by omega), ← h3, List.drop_length, List.nil_append]
  have hcond : ((ds ++ ['倍']).take 3).length = 3 ∧
      ∀ c ∈ (ds ++ ['倍']).take 3, c.isDigit = true := by
    rw [ht]; exact ⟨h3, hds⟩
  unfold matchAt tryDigits
  rw [if_pos hcond, hd, ht]
  rfl

lemma searchChars_digit_run :
    ∀ ds : List Char, 3 ≤ ds.length → (∀ c ∈ ds, c.isDigit = true) →
      searchChars (ds ++ ['倍']) = some (ds.drop (ds.length - 3) ++ ['倍']) := by
  intro ds
  induction ds with
  | nil => intro h3 _; simp at h3
  | cons c tl ih =>
    intro h3 hds
    by_cases h4 : 4 ≤ (c :: tl).length
    · have hmA := matchAt_none_of_long_digit_run (c :: tl) hds h4
      rw [List.cons_append] at hmA
      rw [List.cons_append]
      show (match matchAt (c :: (tl ++ ['倍'])) with
        | some m => some m
        | none => searchChars (tl ++ ['倍'])) = _
      rw [hmA]
      have htl := ih (by simp at h4 ⊢; omega)
        (fun x hx => hds x (List.mem_cons_of_mem c hx))
      rw [htl]
      have hdrop : (c :: tl).drop ((c :: tl).length - 3) = tl.drop (tl.length - 3) := by
        have hlen : (c :: tl).length - 3 = (tl.length - 3) + 1 := by
          simp at h4 ⊢; omega
        rw [hlen, List.drop_succ_cons]
      rw [hdrop]
    · have hlen3 : (c :: tl).length = 3 := by
        simp at h3 h4 ⊢; omega
      have hmA := matchAt_three_digits (c :: tl) hds hlen3
      rw [List.cons_append] at hmA
      rw [List.cons_append]
      show (match matchAt (c :: (tl ++ ['倍'])) with
        | some m => some m
        | none => searchChars (tl ++ ['倍'])) = _
      rw [hmA, hlen3]
      simp

/-! ## Claim theorems about the extractor -/

/-- C7: for every document whose table sequence is empty,
`extract_ev_ebitda_median` returns absent (`none`). -/
theorem extract_empty_tables_absent : extract_ev_ebitda_median [] = none := rfl

/-- C4: when multiple tables contain a qualifying median row, the earliest
match in document order wins: for any table `A` whose scan yields `"7倍"`
and any table `B` whose scan yields `"9倍"`, the document with `A` before
`B` yields `"7倍"` — the scan stops at the first match. -/
theorem extract_first_match_wins (A B : Table)
    (hA : extract_ev_ebitda_median [A] = some "7倍")
    (hB : extract_ev_ebitda_median [B] = some "9倍") :
    extract_ev_ebitda_median [A, B] = some "7倍" := by
  have happ : extract_ev_ebitda_median [A, B]
      = (extract_ev_ebitda_median [A]).or (extract_ev_ebitda_median [B]) := by
    show List.findSome? _ ([A] ++ [B]) = _
    exact List.findSome?_append
  rw [happ, hA]
  rfl

/-- Witness for C4 at a concrete document: table A `[["中央値","7倍"]]`
before table B `[["中央値","9倍"]]` yields `"7倍"`. -/
theorem extract_first_match_wins_witness :
    extract_ev_ebitda_median [[["中央値", "7倍"]], [["中央値", "9倍"]]] = some "7倍" :=
  extract_first_match_wins [["中央値", "7倍"]] [["中央値", "9倍"]] (by decide) (by decide)

/-- C9: a median-labelled row whose last cell has no qualifying pattern
does not terminate the scan: if such a `bad` row precedes (in table/row
document order) a `good` row whose scan yields `some m`, and nothing
before `good` yields a match, the extractor returns `some m`, not
`none`. -/
theorem extract_skips_nonmatching_median_row (pre : List Table)
    (rows1 rows2 rows3 : List Row) (bad good : Row) (m : String)
    (hpre : extract_ev_ebitda_median pre = none)
    (h1 : ∀ r ∈ rows1, rowMatch r = none)
    (hbadLabel : strContains (bad.headD "") "中央値" = true)
    (hbad : patternSearch (bad.getLastD "") = none)
    (h2 : ∀ r ∈ rows2, rowMatch r = none)
    (hgood : rowMatch good = some m) :
    extract_ev_ebitda_median (pre ++ [rows1 ++ bad :: (rows2 ++ good :: rows3)]) = some m := by
  have hbadRow : rowMatch bad = none := by
    unfold rowMatch
    rw [if_pos hbadLabel]
    exact hbad
  have htable : (rows1 ++ bad :: (rows2 ++ good :: rows3)).findSome? rowMatch = some m := by
    rw [List.findSome?_append, List.findSome?_eq_none_iff.mpr h1, Option.none_or,
      List.findSome?_cons, hbadRow]
    show (rows2 ++ good :: rows3).findSome? rowMatch = some m
    rw [List.findSome?_append, List.findSome?_eq_none_iff.mpr h2, Option.none_or,
      List.findSome?_cons, hgood]
  unfold extract_ev_ebitda_median at hpre ⊢
  rw [List.findSome?_append, hpre, Option.none_or, List.findSome?_cons, htable]

/-- Witness for C9 at a concrete document: the table
`[["中央値","N/A"], ["中央値","8.4倍"]]` yields `"8.4倍"`. -/
theorem extract_skips_nonmatching_median_row_witness :
    extract_ev_ebitda_median ([] ++ [[] ++ ["中央値", "N/A"] :: ([] ++ ["中央値", "8.4倍"] :: [])])
      = some "8.4倍" :=
  extract_skips_nonmatching_median_row [] [] [] [] ["中央値", "N/A"] ["中央値", "8.4倍"] "8.4倍"
    (by decide) (by simp) (by decide) (by decide) (by simp) (by decide)

/-- C10: the numeric pattern is not anchored to the start of a digit run.
For a median-labelled row whose last cell is a run of four or more digits
immediately followed by `倍`, the extractor returns the final three digits
plus the suffix — a strict truncation of the digit run, not absent. -/
theorem extract_truncates_long_digit_run (ds : List Char)
    (h4 : 4 ≤ ds.length) (hds : ∀ c ∈ ds, c.isDigit = true) :
    extract_ev_ebitda_median [[["中央値", String.mk (ds ++ ['倍'])]]]
      = some (String.mk (ds.drop (ds.length - 3) ++ ['倍'])) ∧
      (ds.drop (ds.length - 3)).length < ds.length := by
  constructor
  · have h1 : rowMatch ["中央値", String.mk (ds ++ ['倍'])]
        = some (String.mk (ds.drop (ds.length - 3) ++ ['倍'])) := by
      have h2 : rowMatch ["中央値", String.mk (ds ++ ['倍'])]
          = patternSearch (String.mk (ds ++ ['倍'])) := rfl
      rw [h2]
      unfold patternSearch
      have h3 : (String.mk (ds ++ ['倍'])).data = ds ++ ['倍'] := rfl
      rw [h3, searchChars_digit_run ds (by omega) hds]
      rfl
    simp [extract_ev_ebitda_median, List.findSome?_cons, h1]
  · rw [List.length_drop]
    omega

/-- Witness for C10 at the concrete cell `"1234倍"`: the extractor returns
`"234倍"`. -/
theorem extract_truncates_long_digit_run_witness :
    extract_ev_ebitda_median [[["中央値", "1234倍"]]] = some "234倍" ∧
      ((['1', '2', '3', '4'] : List Char).drop 1).length < 4 :=
  extract_truncates_long_digit_run ['1', '2', '3', '4'] (by decide) (by decide)

/-! ## Claim theorems about the endpoint -/

/-- C8: when the industry identifier parameter is absent, the endpoint
responds with the client-error status 400, independently of every
collaborator — so no document loading or summarization is attempted. -/
theorem missing_industry_gives_400 (fileExists : String → Bool) (loadDoc : String → Doc)
    (sim : String → List String → List ℚ) (summarize : String → Except PyExc String) :
    summarize_preset_file none fileExists loadDoc sim summarize
      = Except.error ⟨400, "レポートが表示されていません。業界名を指定してください。"⟩ := rfl

/-- C2 evidence: for an industry whose derived file path does not exist,
the endpoint responds 500 (not 404): the `HTTPException(404)` raised
inside the `try` block is caught by `except Exception` and re-raised as a
500 whose detail is `str(e) = "404: 指定されたファイルが見つかりません。"`. -/
theorem file_missing_gives_500 (ind : String) (loadDoc : String → Doc)
    (sim : String → List String → List ℚ) (summarize : String → Except PyExc String)
    (fileExists : String → Bool)
    (hfile : fileExists ("app/" ++ ind ++ ".docx") = false) :
    summarize_preset_file (some ind) fileExists loadDoc sim summarize
      = Except.error ⟨500, "404: 指定されたファイルが見つかりません。"⟩ := by
  simp only [summarize_preset_file, tryBody]
  rw [hfile]
  rfl

/-- Witness for C2 at a concrete request: industry `"製造"` with no file
anywhere. -/
theorem file_missing_gives_500_witness :
    summarize_preset_file (some "製造") (fun _ => false) (fun _ => ⟨[], []⟩)
      (fun _ _ => []) (fun _ => Except.ok "")
      = Except.error ⟨500, "404: 指定されたファイルが見つかりません。"⟩ :=
  file_missing_gives_500 "製造" (fun _ => ⟨[], []⟩) (fun _ _ => []) (fun _ => Except.ok "")
    (fun _ => false) rfl

/-- C1 evidence: for every request in which the document loads, all five
summarization calls succeed (`summ` is a total success function), and the
extractor returns absent, the endpoint responds 500 (not 404): the
`HTTPException(404)` raised inside the `try` block is caught by
`except Exception` and re-raised as a 500 whose detail is
`str(e) = "404: 企業価値/EBITDA倍率の中央値が見つかりません。"`. -/
theorem metric_missing_gives_500 (ind : String) (fileExists : String → Bool)
    (loadDoc : String → Doc) (sim : String → List String → List ℚ) (summ : String → String)
    (hfile : fileExists ("app/" ++ ind ++ ".docx") = true)
    (hextract : extract_ev_ebitda_median (loadDoc ("app/" ++ ind ++ ".docx")).tables = none) :
    summarize_preset_file (some ind) fileExists loadDoc sim (fun p => Except.ok (summ p))
      = Except.error ⟨500, "404: 企業価値/EBITDA倍率の中央値が見つかりません。"⟩ := by
  simp only [summarize_preset_file, tryBody]
  rw [hfile, hextract]
  rfl

/-- Witness for C1 at a concrete request: industry `"IT"`, an existing
file, a document with one paragraph and no tables, every summarization
call succeeding. -/
theorem metric_missing_gives_500_witness :
    summarize_preset_file (some "IT") (fun _ => true) (fun _ => ⟨["段落1"], []⟩)
      (fun _ _ => [1]) (fun _ => Except.ok "要約")
      = Except.error ⟨500, "404: 企業価値/EBITDA倍率の中央値が見つかりません。"⟩ :=
  metric_missing_gives_500 "IT" (fun _ => true) (fun _ => ⟨["段落1"], []⟩)
    (fun _ _ => [1]) (fun _ => "要約") rfl rfl

/-! ## Claim theorems about the ranker -/

/-- Counterexample to C3 as stated: on two paragraphs with equal
similarity scores (e.g. a query sharing no term with either paragraph,
so both cosine similarities are 0), `search_relevant_text` returns the
LATER paragraph first — `argsort` emits tied indices in ascending order
and the final `[::-1]` reverses them — while the spec's ordering
(`specRank`, ties broken by original paragraph order) returns the earlier
one first. -/
theorem rank_tie_break_counterexample :
    search_relevant_text [0, 0] ["aaa", "bbb"] = ["bbb", "aaa"] ∧
      specRank [0, 0] ["aaa", "bbb"] = ["aaa", "bbb"] ∧
      search_relevant_text [0, 0] ["aaa", "bbb"] ≠ specRank [0, 0] ["aaa", "bbb"] := by
  decide

/-- C3 amended: `search_relevant_text` orders the selected paragraphs by
descending similarity score, but ties are broken by DESCENDING original
paragraph order (among equal-score paragraphs, the later one in the input
comes first), because the ascending stable `argsort` is reversed. -/
theorem rank_orders_desc_ties_later_first (scores : List ℚ) (texts : List String) :
    search_relevant_text scores texts
      = ((rank_indices scores).map fun i => texts.getD i "") ∧
      (rank_indices scores).Pairwise (fun i j =>
        scores.getD j 0 < scores.getD i 0 ∨
          (scores.getD i 0 = scores.getD j 0 ∧ j < i)) := by
  refine ⟨rfl, ?_⟩
  have h1 := (rank_indices_pairwise scores).and (rank_indices_nodup scores)
  refine h1.imp ?_
  intro i j hij
  obtain ⟨hle, hne⟩ := hij
  unfold idxLe at hle
  rcases hle with hlt | ⟨heq, hlej⟩
  · exact Or.inl hlt
  · exact Or.inr ⟨heq.symm, lt_of_le_of_ne hlej (fun h => hne h.symm)⟩

/-- C5: the ranker returns at most 3 items, and every returned item is an
element of the input paragraph list. -/
theorem rank_at_most_three_from_input (scores : List ℚ) (texts : List String)
    (h : scores.length = texts.length) (hne : texts ≠ []) :
    (search_relevant_text scores texts).length ≤ 3 ∧
      ∀ s ∈ search_relevant_text scores texts, s ∈ texts := by
  constructor
  · unfold search_relevant_text
    rw [List.length_map]
    exact rank_indices_length_le scores
  · intro s hs
    unfold search_relevant_text at hs
    rw [List.mem_map] at hs
    obtain ⟨i, hi, rfl⟩ := hs
    have hlt : i < texts.length := h ▸ rank_indices_mem_lt scores hi
    rw [List.getD_eq_getElem texts "" hlt]
    exact List.getElem_mem hlt

/-- Witness for C5 at concrete scores `[1, 2]` and paragraphs
`["a", "b"]`. -/
theorem rank_at_most_three_from_input_witness :
    (search_relevant_text [1, 2] ["a", "b"]).length ≤ 3 ∧
      ∀ s ∈ search_relevant_text [1, 2] ["a", "b"], s ∈ ["a", "b"] :=
  rank_at_most_three_from_input [1, 2] ["a", "b"] rfl (by decide)

/-- C6: on a non-empty paragraph list with fewer than 3 paragraphs the
ranker returns all of them (a permutation of the input), ordered by
descending similarity score. -/
theorem rank_returns_all_when_fewer_than_three (scores : List ℚ) (texts : List String)
    (h : scores.length = texts.length) (hne : texts ≠ []) (hlt : texts.length < 3) :
    (search_relevant_text scores texts).Perm texts ∧
      (rank_indices scores).Pairwise (fun i j => scores.getD j 0 ≤ scores.getD i 0) := by
  constructor
  · unfold search_relevant_text rank_indices
    have hdrop : scores.length - 3 = 0 := by omega
    rw [hdrop, List.drop_zero]
    have p1 : ((argsortAsc scores).reverse.map fun i => texts.getD i "").Perm
        ((argsortAsc scores).map fun i => texts.getD i "") := by
      rw [List.map_reverse]
      exact List.reverse_perm _
    have p2 := (argsortAsc_perm scores).map fun i => texts.getD i ""
    have p3 : ((List.range scores.length).map fun i => texts.getD i "") = texts := by
      rw [h]
      exact map_getD_range texts ""
    have p4 : ((List.range scores.length).map fun i => texts.getD i "").Perm texts := by
      rw [p3]
    exact (p1.trans p2).trans p4
  · refine (rank_indices_pairwise scores).imp ?_
    intro i j hij
    unfold idxLe at hij
    rcases hij with hlt' | ⟨heq, _⟩
    · exact le_of_lt hlt'
    · exact le_of_eq heq

/-- Witness for C6 at concrete scores `[1, 2]` and paragraphs
`["a", "b"]`. -/
theorem rank_returns_all_when_fewer_than_three_witness :
    (search_relevant_text [1, 2] ["a", "b"]).Perm ["a", "b"] ∧
      (rank_indices [1, 2]).Pairwise (fun i j =>
        ([1, 2] : List ℚ).getD j 0 ≤ ([1, 2] : List ℚ).getD i 0) :=
  rank_returns_all_when_fewer_than_three [1, 2] ["a", "b"] rfl (by decide) (by decide)
